import Mathlib

/-!
Verification of the JMESPath implementation (functions.rs, parser.rs).

Shallow embedding conventions:
* Rust `f64` numbers are modelled as exact rationals (`ℚ`); the claims
  settled here only depend on constructor-level behaviour and on exact
  arithmetic identities.
* `Rcvar` reference sharing is ignored: values are plain inductive data.
* `BTreeMap<String, Rcvar>` is modelled as an association list kept in
  ascending key order by its insert operation, mirroring the ordered-map
  semantics of the Rust standard library type used by `functions.rs`.
* Fallible Rust code returns `Except`; `unwrap`/`panic!` on paths that the
  signature validator excludes are modelled by the `Error.unreachableCode`
  (resp. `ParseErr.internalPanic`) constructors.
* `interpret` (interpreter.rs, outside the provided sources) is abstracted
  as an explicit function argument wherever a builtin evaluates an
  expression reference.
-/

namespace Jmespath

/-- JMESPath value kinds, mirroring `JmespathType` of variable.rs
(referenced from functions.rs); names follow the spec §4.4 rendering table. -/
inductive JmespathType where
  | null
  | string
  | number
  | bool
  | array
  | object
  | expref
deriving DecidableEq, Repr

/-- Rendered type names ("null", "boolean", ...) used in error payloads. -/
def JmespathType.toStr : JmespathType → String
  | .null => "null"
  | .string => "string"
  | .number => "number"
  | .bool => "boolean"
  | .array => "array"
  | .object => "object"
  | .expref => "expref"

/-- Comparison operators of the AST (`Comparator` in ast.rs, used by parser.rs). -/
inductive Comparator where
  | eq
  | ne
  | lt
  | lte
  | gt
  | gte
deriving DecidableEq, Repr

mutual
/-- JMESPath values (`Variable` of variable.rs, as used by functions.rs).
Numbers are modelled as exact rationals; `object` holds the association
list underlying the `BTreeMap` (ascending key order). -/
inductive Variable where
  | null
  | bool (b : Bool)
  | number (q : ℚ)
  | string (s : String)
  | array (xs : List Variable)
  | object (m : List (String × Variable))
  | expref (a : Ast)

/-- The parsed AST (`Ast` of ast.rs, produced by parser.rs; cases per spec §3). -/
inductive Ast where
  | identifier (s : String)
  | literal (v : Variable)
  | currentNode
  | subexpr (lhs rhs : Ast)
  | index (i : Int)
  | projection (lhs rhs : Ast)
  | objectValues (child : Ast)
  | flatten (child : Ast)
  | slice (start stop step : Option Int)
  | or (lhs rhs : Ast)
  | and (lhs rhs : Ast)
  | not (child : Ast)
  | comparison (op : Comparator) (lhs rhs : Ast)
  | condition (test then_ : Ast)
  | multiList (children : List Ast)
  | multiHash (pairs : List (String × Ast))
  | function (name : String) (args : List Ast)
  | expref (child : Ast)
end

mutual
/-- Structural equality on values (Rust `PartialEq` on `Variable`). -/
def varBeq : Variable → Variable → Bool
  | .null, .null => true
  | .bool a, .bool b => a == b
  | .number a, .number b => a == b
  | .string a, .string b => a == b
  | .array xs, .array ys => varsBeq xs ys
  | .object xs, .object ys => objBeq xs ys
  | .expref a, .expref b => astBeq a b
  | _, _ => false

def varsBeq : List Variable → List Variable → Bool
  | [], [] => true
  | x :: xs, y :: ys => varBeq x y && varsBeq xs ys
  | _, _ => false

def objBeq : List (String × Variable) → List (String × Variable) → Bool
  | [], [] => true
  | (k, v) :: xs, (k2, v2) :: ys => k == k2 && varBeq v v2 && objBeq xs ys
  | _, _ => false

/-- Structural equality on ASTs (Rust `PartialEq` on `Ast`). -/
def astBeq : Ast → Ast → Bool
  | .identifier a, .identifier b => a == b
  | .literal a, .literal b => varBeq a b
  | .currentNode, .currentNode => true
  | .subexpr a b, .subexpr c d => astBeq a c && astBeq b d
  | .index a, .index b => a == b
  | .projection a b, .projection c d => astBeq a c && astBeq b d
  | .objectValues a, .objectValues b => astBeq a b
  | .flatten a, .flatten b => astBeq a b
  | .slice a b c, .slice d e f => a == d && b == e && c == f
  | .or a b, .or c d => astBeq a c && astBeq b d
  | .and a b, .and c d => astBeq a c && astBeq b d
  | .not a, .not b => astBeq a b
  | .comparison o a b, .comparison p c d => o == p && astBeq a c && astBeq b d
  | .condition a b, .condition c d => astBeq a c && astBeq b d
  | .multiList xs, .multiList ys => astsBeq xs ys
  | .multiHash xs, .multiHash ys => hashBeq xs ys
  | .function n xs, .function m ys => n == m && astsBeq xs ys
  | .expref a, .expref b => astBeq a b
  | _, _ => false

def astsBeq : List Ast → List Ast → Bool
  | [], [] => true
  | x :: xs, y :: ys => astBeq x y && astsBeq xs ys
  | _, _ => false

def hashBeq : List (String × Ast) → List (String × Ast) → Bool
  | [], [] => true
  | (k, v) :: xs, (k2, v2) :: ys => k == k2 && astBeq v v2 && hashBeq xs ys
  | _, _ => false
end

/-- `Variable::get_type` (variable.rs, used throughout functions.rs). -/
def Variable.get_type : Variable → JmespathType
  | .null => .null
  | .bool _ => .bool
  | .number _ => .number
  | .string _ => .string
  | .array _ => .array
  | .object _ => .object
  | .expref _ => .expref

def Variable.is_null (v : Variable) : Bool := v.get_type == .null
def Variable.is_string (v : Variable) : Bool := v.get_type == .string
def Variable.is_number (v : Variable) : Bool := v.get_type == .number
def Variable.is_boolean (v : Variable) : Bool := v.get_type == .bool
def Variable.is_array (v : Variable) : Bool := v.get_type == .array
def Variable.is_object (v : Variable) : Bool := v.get_type == .object
def Variable.is_expref (v : Variable) : Bool := v.get_type == .expref

def Variable.as_string : Variable → Option String
  | .string s => some s
  | _ => none

/- ------------------------------------------
 - Argument types and signatures (functions.rs 16-88, 199-281)
 - ------------------------------------------ -/

/-- `ArgumentType` (functions.rs 18-31). -/
inductive ArgumentType where
  | any
  | null
  | string
  | number
  | bool
  | object
  | array
  | expref
  | typedArray (t : ArgumentType)
  | union (ts : List ArgumentType)

mutual
/-- `ArgumentType::is_valid` (functions.rs 35-52). -/
def ArgumentType.is_valid : ArgumentType → Variable → Bool
  | .any, _ => true
  | .null, v => v.is_null
  | .string, v => v.is_string
  | .number, v => v.is_number
  | .object, v => v.is_object
  | .bool, v => v.is_boolean
  | .expref, v => v.is_expref
  | .array, v => v.is_array
  | .typedArray t, v =>
    match v with
    | .array xs => xs.all (fun x => t.is_valid x)
    | _ => false
  | .union ts, v => anyValid ts v

/-- `types.iter().any(|t| t.is_valid(value))` of the `Union` case. -/
def anyValid : List ArgumentType → Variable → Bool
  | [], _ => false
  | t :: ts, v => t.is_valid v || anyValid ts v
end

mutual
/-- The `Display` rendering of `ArgumentType` (functions.rs 55-74). -/
def ArgumentType.toStr : ArgumentType → String
  | .any => "any"
  | .string => "string"
  | .number => "number"
  | .bool => "boolean"
  | .array => "array"
  | .object => "object"
  | .null => "null"
  | .expref => "expref"
  | .typedArray t => "array[" ++ t.toStr ++ "]"
  | .union ts => String.intercalate "|" (unionStrs ts)

def unionStrs : List ArgumentType → List String
  | [] => []
  | t :: ts => t.toStr :: unionStrs ts
end

/-- `RuntimeError` reason variants (per errors.rs, referenced from functions.rs
and spec §7). -/
inductive RuntimeError where
  | unknownFunction (name : String)
  | notEnoughArguments (expected actual : Nat)
  | tooManyArguments (expected actual : Nat)
  | invalidType (expected actual : String) (position : Nat)
  | invalidReturnType (expected actual : String) (position invocation : Nat)
  | invalidSlice
deriving DecidableEq, Repr

/-- The error side of `SearchResult`: a runtime reason (positions and the
source expression carried by `Error::from_ctx` are orthogonal to the claims
and are not modelled), or a marker for Rust panics on paths the validator
makes unreachable. -/
inductive Error where
  | runtime (r : RuntimeError)
  | unreachableCode
deriving DecidableEq, Repr

/-- `SearchResult` (interpreter.rs alias used by functions.rs). -/
abbrev SearchResult := Except Error Variable

/-- `Signature` (functions.rs 201-205). -/
structure Signature where
  inputs : List ArgumentType
  variadic : Option ArgumentType
  output : ArgumentType

/-- `Signature::validate_arity` (functions.rs 223-247). -/
def Signature.validate_arity (sig : Signature) (actual : Nat) : Except Error Unit :=
  let expected := sig.inputs.length
  if sig.variadic.isSome then
    if actual ≥ expected then
      .ok ()
    else
      .error (.runtime (.notEnoughArguments expected actual))
  else if actual = expected then
    .ok ()
  else if actual < expected then
    .error (.runtime (.notEnoughArguments expected actual))
  else
    .error (.runtime (.tooManyArguments expected actual))

/-- `Signature::validate_arg` (functions.rs 265-280). -/
def Signature.validate_arg (position : Nat) (value : Variable) (validator : ArgumentType) :
    Except Error Unit :=
  if validator.is_valid value then
    .ok ()
  else
    .error (.runtime (.invalidType validator.toStr value.get_type.toStr position))

/-- The argument loop of `Signature::validate` (functions.rs 252-261): each
argument `k` is checked against `inputs[k]` when present, otherwise against
the variadic validator (only reachable when one exists). -/
def validateArgsFrom (inputs : List ArgumentType) (variadic : Option ArgumentType) :
    Nat → List Variable → Except Error Unit
  | _, [] => .ok ()
  | k, v :: rest =>
    match inputs.get? k with
    | some validator =>
      match Signature.validate_arg k v validator with
      | .error e => .error e
      | .ok _ => validateArgsFrom inputs variadic (k + 1) rest
    | none =>
      match variadic with
      | some validator =>
        match Signature.validate_arg k v validator with
        | .error e => .error e
        | .ok _ => validateArgsFrom inputs variadic (k + 1) rest
      | none => .error .unreachableCode

/-- `Signature::validate` (functions.rs 250-263). -/
def Signature.validate (sig : Signature) (args : List Variable) : Except Error Unit :=
  match sig.validate_arity args.length with
  | .error e => .error e
  | .ok _ => validateArgsFrom sig.inputs sig.variadic 0 args

/- ------------------------------------------
 - Builtin function definitions (functions.rs 289-725)
 - ------------------------------------------ -/

/-- Signature of `AvgFn` (functions.rs 386): `[array[number]] -> number`. -/
def avgSignature : Signature := ⟨[.typedArray .number], none, .number⟩

/-- The `as_number().unwrap()` of a validated number value; non-numbers are
unreachable on validated paths. -/
def Variable.as_number_unwrap : Variable → ℚ
  | .number q => q
  | _ => 0

/-- `AvgFn::evaluate` (functions.rs 388-397): validates, then folds the sum
and divides by the length with no emptiness check. -/
def avgFn (args : List Variable) : SearchResult :=
  match avgSignature.validate args with
  | .error e => .error e
  | .ok _ =>
    match args with
    | [.array values] =>
      let sum := values.foldl (fun a b => a + b.as_number_unwrap) 0
      .ok (.number (sum / (values.length : ℚ)))
    | _ => .error .unreachableCode

/-- Character-list prefix test, for the substring model of Rust
`str::contains`. -/
def charsPrefix : List Char → List Char → Bool
  | [], _ => true
  | _ :: _, [] => false
  | a :: xs, b :: ys => a == b && charsPrefix xs ys

/-- Substring containment on character lists (Rust `subj.contains(s)` for
string needles). -/
def charsContains (needle : List Char) : List Char → Bool
  | [] => charsPrefix needle []
  | c :: t => charsPrefix needle (c :: t) || charsContains needle t

/-- Signature of `ContainsFn` (functions.rs 409): `[string|array, any] -> boolean`. -/
def containsSignature : Signature := ⟨[.union [.string, .array], .any], none, .bool⟩

/-- `ContainsFn::evaluate` (functions.rs 411-429). -/
def containsFn (args : List Variable) : SearchResult :=
  match containsSignature.validate args with
  | .error e => .error e
  | .ok _ =>
    match args with
    | [haystack, needle] =>
      match haystack with
      | .array a => .ok (.bool (a.any (fun x => varBeq x needle)))
      | .string subj =>
        match needle.as_string with
        | none => .ok (.bool false)
        | some s => .ok (.bool (charsContains s.toList subj.toList))
      | _ => .error .unreachableCode
    | _ => .error .unreachableCode

/-- Signature of `KeysFn` (functions.rs 468): `[object] -> array`. -/
def keysSignature : Signature := ⟨[.object], none, .array⟩

/-- `KeysFn::evaluate` (functions.rs 470-479): the object's keys in the
map's iteration order. -/
def keysFn (args : List Variable) : SearchResult :=
  match keysSignature.validate args with
  | .error e => .error e
  | .ok _ =>
    match args with
    | [.object m] => .ok (.array (m.map (fun kv => .string kv.1)))
    | _ => .error .unreachableCode

/-- Signature of `ValuesFn` (functions.rs 716): `[object] -> array`. -/
def valuesSignature : Signature := ⟨[.object], none, .array⟩

/-- `ValuesFn::evaluate` (functions.rs 718-724): the object's values in the
map's iteration order. -/
def valuesFn (args : List Variable) : SearchResult :=
  match valuesSignature.validate args with
  | .error e => .error e
  | .ok _ =>
    match args with
    | [.object m] => .ok (.array (m.map (fun kv => kv.2)))
    | _ => .error .unreachableCode

/-- `BTreeMap::insert` on the sorted-association-list model: keeps keys in
strictly ascending order, replacing the value on an existing key. -/
def btInsert (k : String) (v : Variable) : List (String × Variable) → List (String × Variable)
  | [] => [(k, v)]
  | (k2, v2) :: rest =>
    if k < k2 then (k, v) :: (k2, v2) :: rest
    else if k = k2 then (k, v) :: rest
    else (k2, v2) :: btInsert k v rest

/-- `BTreeMap::extend` over one argument's entries. -/
def btExtend (acc : List (String × Variable)) (entries : List (String × Variable)) :
    List (String × Variable) :=
  entries.foldl (fun m kv => btInsert kv.1 kv.2 m) acc

/-- Signature of `MergeFn` (functions.rs 547): `[object, ...object] -> object`. -/
def mergeSignature : Signature := ⟨[.object], some .object, .object⟩

/-- `MergeFn::evaluate` (functions.rs 549-558): starts from
`BTreeMap::new()` and extends with every argument's entries in order. -/
def mergeFn (args : List Variable) : SearchResult :=
  match mergeSignature.validate args with
  | .error e => .error e
  | .ok _ =>
    let result := args.foldl
      (fun acc arg =>
        match arg with
        | .object m => btExtend acc m
        | _ => acc)
      []
    .ok (.object result)

/-- The loop of the `min_and_max_by!` macro (functions.rs 335-350):
`invocation` is the `enumerate` index of the element being mapped, the
candidate pair is `(original value, mapped value)`. -/
def mmbLoop (cmp : Variable → Variable → Bool) (f : Variable → SearchResult)
    (entered : JmespathType) : List Variable → Nat → Variable × Variable → SearchResult
  | [], _, candidate => .ok candidate.1
  | v :: rest, invocation, candidate =>
    match f v with
    | .error e => .error e
    | .ok mapped =>
      if mapped.get_type ≠ entered then
        .error (.runtime (.invalidReturnType ("expression->" ++ entered.toStr)
          mapped.get_type.toStr 1 invocation))
      else
        mmbLoop cmp f entered rest (invocation + 1)
          (if cmp mapped candidate.2 then (v, mapped) else candidate)

/-- The `min_and_max_by!` macro body (functions.rs 311-354), with the
interpreter call `interpret(&v, &ast, ctx)` abstracted as `f`. -/
def minAndMaxBy (cmp : Variable → Variable → Bool) (f : Variable → SearchResult)
    (vals : List Variable) : SearchResult :=
  match vals with
  | [] => .ok .null
  | v0 :: rest =>
    match f v0 with
    | .error e => .error e
    | .ok initial =>
      let entered := initial.get_type
      if entered ≠ .string ∧ entered ≠ .number then
        .error (.runtime (.invalidReturnType "expression->number|expression->string"
          entered.toStr 1 1))
      else
        mmbLoop cmp f entered rest 1 (v0, initial)

/-- Modelled from the spec: `Variable`'s `PartialOrd::gt` (variable.rs is not
among the sources); per spec §3, ordering is defined only between two Numbers
or between two Strings, so `gt` is false on every other pair. -/
def Variable.pGt (a b : Variable) : Bool :=
  match a, b with
  | .number x, .number y => decide (y < x)
  | .string x, .string y => decide (y < x)
  | _, _ => false

/-- Modelled from the spec: `Variable`'s `PartialOrd::lt`, as for `pGt`. -/
def Variable.pLt (a b : Variable) : Bool :=
  match a, b with
  | .number x, .number y => decide (x < y)
  | .string x, .string y => decide (x < y)
  | _, _ => false

/-- Signature of `MaxByFn`/`MinByFn` (functions.rs 529, 538):
`[array, expref] -> string|number`. -/
def maxBySignature : Signature := ⟨[.array, .expref], none, .union [.string, .number]⟩

/-- `MaxByFn::evaluate` (functions.rs 531-536); the interpreter is passed in
as `interp`, applied to the expression reference exactly as
`interpret(&v, &ast, ctx)` is in the source. -/
def maxByFn (interp : Ast → Variable → SearchResult) (args : List Variable) : SearchResult :=
  match maxBySignature.validate args with
  | .error e => .error e
  | .ok _ =>
    match args with
    | [.array vals, .expref ast] => minAndMaxBy Variable.pGt (interp ast) vals
    | _ => .error .unreachableCode

/-- `MinByFn::evaluate` (functions.rs 540-545). -/
def minByFn (interp : Ast → Variable → SearchResult) (args : List Variable) : SearchResult :=
  match maxBySignature.validate args with
  | .error e => .error e
  | .ok _ =>
    match args with
    | [.array vals, .expref ast] => minAndMaxBy Variable.pLt (interp ast) vals
    | _ => .error .unreachableCode

/-- Modelled from the spec: the strict part of `Ord::cmp` on `Variable`
(variable.rs is not among the sources); only Number/Number and String/String
pairs are ordered (§3), which are the only kinds `sort_by` allows. -/
def Variable.keyLt (a b : Variable) : Bool :=
  match a, b with
  | .number x, .number y => decide (x < y)
  | .string x, .string y => decide (x < y)
  | _, _ => false

/-- Stable insertion into a list sorted by the strict order on the mapped
value (`.2`): a new element goes after every element not strictly above it. -/
def insertByKey (x : Variable × Variable) : List (Variable × Variable) → List (Variable × Variable)
  | [] => [x]
  | y :: ys => if Variable.keyLt x.2 y.2 then x :: y :: ys else y :: insertByKey x ys

/-- Stable sort by the mapped value, modelling the stable
`mapped.sort_by(|a, b| a.1.cmp(&b.1))` of functions.rs 637. -/
def stableSortByKey : List (Variable × Variable) → List (Variable × Variable)
  | [] => []
  | x :: xs => insertByKey x (stableSortByKey xs)

/-- The mapping loop of `SortByFn::evaluate` (functions.rs 623-636). -/
def sortByLoop (f : Variable → SearchResult) (first_type : JmespathType) :
    List Variable → Nat → List (Variable × Variable) →
    Except Error (List (Variable × Variable))
  | [], _, mapped => .ok mapped
  | v :: rest, invocation, mapped =>
    match f v with
    | .error e => .error e
    | .ok mapped_value =>
      if mapped_value.get_type ≠ first_type then
        .error (.runtime (.invalidReturnType ("expression->" ++ first_type.toStr)
          mapped_value.get_type.toStr 1 invocation))
      else
        sortByLoop f first_type rest (invocation + 1) (mapped ++ [(v, mapped_value)])

/-- The body of `SortByFn::evaluate` after argument extraction
(functions.rs 606-640), with the interpreter abstracted as `f`. -/
def sortByBody (f : Variable → SearchResult) (vals : List Variable) : SearchResult :=
  match vals with
  | [] => .ok (.array [])
  | v0 :: rest =>
    match f v0 with
    | .error e => .error e
    | .ok first_value =>
      let first_type := first_value.get_type
      if first_type ≠ .string ∧ first_type ≠ .number then
        .error (.runtime (.invalidReturnType "expression->string|expression->number"
          first_type.toStr 1 1))
      else
        match sortByLoop f first_type rest 1 [(v0, first_value)] with
        | .error e => .error e
        | .ok mapped => .ok (.array ((stableSortByKey mapped).map (fun t => t.1)))

/-- Signature of `SortByFn` (functions.rs 601): `[array, expref] -> array`. -/
def sortBySignature : Signature := ⟨[.array, .expref], none, .array⟩

/-- `SortByFn::evaluate` (functions.rs 603-641). -/
def sortByFn (interp : Ast → Variable → SearchResult) (args : List Variable) : SearchResult :=
  match sortBySignature.validate args with
  | .error e => .error e
  | .ok _ =>
    match args with
    | [.array vals, .expref ast] => sortByBody (interp ast) vals
    | _ => .error .unreachableCode

/- ------------------------------------------
 - Parser (parser.rs)
 - ------------------------------------------ -/

/-- Lexer tokens (`Token` of lexer.rs, as listed in spec §3 and used by
parser.rs). -/
inductive Token where
  | identifier (s : String)
  | quotedIdentifier (s : String)
  | literal (v : Variable)
  | number (i : Int)
  | dot
  | star
  | flatten
  | filter
  | ampersand
  | not
  | or
  | and
  | pipe
  | lparen
  | rparen
  | lbracket
  | rbracket
  | lbrace
  | rbrace
  | colon
  | comma
  | at
  | eq
  | ne
  | lt
  | lte
  | gt
  | gte
  | unknown (hint : String)
  | eof

/-- Modelled from the spec: `Token::lbp` (lexer.rs is not among the sources).
Spec §4.1 fixes `.` and `[` at ≥ 45, `*` and the projection tokens at 20,
`|` at 9, `||` at 2, `&&` at 3, comparators at 5, everything else 0; the
remaining values follow the parser's internal requirements (function-call
`(` and multi-hash `{` handling need binding powers above operand level).
No theorem below depends on the individual numbers. -/
def Token.lbp : Token → Nat
  | .pipe => 9
  | .or => 2
  | .and => 3
  | .eq => 5
  | .ne => 5
  | .lt => 5
  | .lte => 5
  | .gt => 5
  | .gte => 5
  | .star => 20
  | .flatten => 20
  | .filter => 20
  | .dot => 45
  | .lbrace => 50
  | .lbracket => 55
  | .lparen => 60
  | _ => 0

/-- `Token::is_number` (lexer.rs, used by `Parser::parse_slice`). -/
def Token.is_number : Token → Bool
  | .number _ => true
  | _ => false

/-- `Operator` (parser.rs 66-72). -/
inductive Operator where
  | basic (t : Token)
  | function (name : String) (args : List Ast)
  | multiList (args : List Ast)
  | arrayProjection
  | sliceProjection (is_binary : Bool) (start stop step : Option Int)

/-- `Operator::is_right_associative` (parser.rs 90-98). -/
def Operator.is_right_associative : Operator → Bool
  | .basic .star => true
  | .basic .filter => true
  | .arrayProjection => true
  | .sliceProjection _ _ _ _ => true
  | _ => false

/-- `Operator::precedence` (parser.rs 102-110). -/
def Operator.precedence : Operator → Nat
  | .basic t => t.lbp
  | .function _ _ => 0
  | .arrayProjection => Token.star.lbp
  | .sliceProjection _ _ _ _ => Token.star.lbp
  | .multiList _ => Token.lparen.lbp

/-- `Operator::has_lower_precedence` (parser.rs 80-86). -/
def Operator.has_lower_precedence (self op : Operator) : Bool :=
  if self.is_right_associative then
    decide (self.precedence < op.precedence)
  else
    decide (self.precedence ≤ op.precedence)

/-- `Operator::is_binary` (parser.rs 113-120). -/
def Operator.is_binary : Operator → Bool
  | .basic .ampersand => false
  | .basic .not => false
  | .sliceProjection b _ _ _ => b
  | _ => true

/-- `ParseError` (parser.rs 21-28): the claims only involve the message
passed to `Parser::err`, so line/column rendering is not modelled;
`internalPanic` marks Rust `panic!`/`unwrap` failures. -/
inductive ParseErr where
  | msg (s : String)
  | internalPanic
deriving DecidableEq, Repr

/-- `Parser::pop_basic_binary` (parser.rs 551-580), returning the node to
push. -/
def pop_basic_binary (tok : Token) (lhs rhs : Ast) : Except ParseErr Ast :=
  match tok with
  | .dot => .ok (.subexpr lhs rhs)
  | .or => .ok (.or lhs rhs)
  | .pipe => .ok (.subexpr lhs rhs)
  | .star => .ok (.projection (.objectValues lhs) rhs)
  | .flatten => .ok (.projection (.flatten lhs) rhs)
  | .eq => .ok (.comparison .eq lhs rhs)
  | .ne => .ok (.comparison .ne lhs rhs)
  | .gt => .ok (.comparison .gt lhs rhs)
  | .gte => .ok (.comparison .gte lhs rhs)
  | .lt => .ok (.comparison .lt lhs rhs)
  | .lte => .ok (.comparison .lte lhs rhs)
  | _ => .error (.msg "Unexpected binary operator")

/-- `Parser::pop_token` (parser.rs 521-548) on the two stacks (head = top).
Returns the remaining operator stack, the new output stack and the
pass-through token. Stack underflows (`unwrap`) and the `panic!()` on a
binary `Function` map to `internalPanic`. -/
def pop_token (ops : List Operator) (out : List Ast) (token : Token) :
    Except ParseErr (List Operator × List Ast × Token) :=
  match ops with
  | [] => .error .internalPanic
  | operator :: restOps =>
    if operator.is_binary then
      match out with
      | rhs :: lhs :: restOut =>
        match operator with
        | .basic tok =>
          match pop_basic_binary tok lhs rhs with
          | .error e => .error e
          | .ok node => .ok (restOps, node :: restOut, token)
        | .arrayProjection =>
          .ok (restOps, .projection lhs rhs :: restOut, token)
        | .function _ _ => .error .internalPanic
        | .sliceProjection _ start stop step =>
          .ok (restOps,
            .subexpr lhs (.projection (.slice start stop step) rhs) :: restOut, token)
        | .multiList _ => .error (.msg "Unexpected binary operator")
      | _ => .error .internalPanic
    else
      match out with
      | node :: restOut =>
        match operator with
        | .basic .ampersand => .ok (restOps, .expref node :: restOut, token)
        | .sliceProjection _ start stop step =>
          .ok (restOps, .projection (.slice start stop step) node :: restOut, token)
        | _ => .error (.msg "Unexpected unary operator")
      | [] => .error .internalPanic

/-- The `Token::QuotedIdentifier` arm of `Parser::nud` (parser.rs 234-243):
`advance` is modelled as taking the head of the remaining token stream
(`Eof` when exhausted); on success the next token, the remaining stream and
the new output stack are returned. -/
def nud_quoted (value : String) (stream : List Token) (out : List Ast) :
    Except ParseErr (Token × List Token × List Ast) :=
  match stream with
  | .lparen :: _ => .error (.msg "Quoted strings can\x27t be function names")
  | t :: rest => .ok (t, rest, .identifier value :: out)
  | [] => .ok (.eof, [], .identifier value :: out)

/-- `parts[pos] = Some(value)` on the three slice parts
(parser.rs 393, 401); `pos` never exceeds 2. -/
def setPart (parts : Option Int × Option Int × Option Int) (pos : Nat) (v : Int) :
    Option Int × Option Int × Option Int :=
  match pos with
  | 0 => (some v, parts.2.1, parts.2.2)
  | 1 => (parts.1, some v, parts.2.2)
  | _ => (parts.1, parts.2.1, some v)

/-- The loop of `Parser::parse_slice` (parser.rs 392-409). The first list
holds the current token followed by the unconsumed stream; an empty list is
the `Eof` current token, which falls into the catch-all error arm exactly as
in the source. -/
def parse_slice_loop : List Token → Nat → (Option Int × Option Int × Option Int) →
    Except ParseErr ((Option Int × Option Int × Option Int) × List Token)
  | [], _, _ => .error (.msg "Expected number, \x27:\x27, or \x27]\x27")
  | .rbracket :: rest, _, parts => .ok (parts, rest)
  | .colon :: rest, pos, parts =>
    if pos = 2 then .error (.msg "Found too many colons in slice expression")
    else parse_slice_loop rest (pos + 1) parts
  | .number _ :: [], _, _ =>
    -- the source stores the part, advances to `Eof` (not a number) and the
    -- next iteration hits the catch-all arm; the stored part is discarded
    -- with the error, so the step is inlined here
    .error (.msg "Expected number, \x27:\x27, or \x27]\x27")
  | .number v :: t :: ts, pos, parts =>
    if t.is_number then .error (.msg "Expected \x27:\x27, or \x27]\x27")
    else parse_slice_loop (t :: ts) pos (setPart parts pos v)
  | _ :: _, _, _ => .error (.msg "Expected number, \x27:\x27, or \x27]\x27")

/-- `Parser::parse_slice` (parser.rs 391-414): on success it hands
`Operator::SliceProjection(is_binary, parts...)` to `projection_rhs`, which
pushes exactly that operator onto the operator stack; the returned pair is
that operator together with the unconsumed stream. -/
def parse_slice (is_binary : Bool) (tokens : List Token) :
    Except ParseErr (Operator × List Token) :=
  match parse_slice_loop tokens 0 (none, none, none) with
  | .error e => .error e
  | .ok (parts, rest) =>
    .ok (.sliceProjection is_binary parts.1 parts.2.1 parts.2.2, rest)

/-- The slice dispatch of `Parser::parse_lbracket` (parser.rs 380, 384-385):
both call sites invoke `parse_slice` with `is_binary = !is_nud`. -/
def parse_lbracket_slice (is_nud : Bool) (tokens : List Token) :
    Except ParseErr (Operator × List Token) :=
  parse_slice (!is_nud) tokens

/-- Number of `Colon` tokens in a list. -/
def countColons : List Token → Nat
  | [] => 0
  | .colon :: rest => countColons rest + 1
  | _ :: rest => countColons rest

/-- True when some `Number` token is immediately followed by another
`Number` token. -/
def hasAdjacentNumbers : List Token → Bool
  | .number _ :: .number _ :: _ => true
  | _ :: rest => hasAdjacentNumbers rest
  | [] => false

/-- An optional numeric slice part as the token it lexes from. -/
def optNumTok : Option Int → List Token
  | none => []
  | some v => [.number v]

/- ------------------------------------------
 - Theorems
 - ------------------------------------------ -/

/-- C1. The claim says `avg` of an empty `array[Number]` yields Null; the
code (functions.rs 388-397) never checks emptiness and always returns a
`Number` — at the empty array it computes `0.0 / 0.0` (NaN in `f64`;
`0 / 0 = 0` in the exact-rational model), in particular never Null. -/
theorem avg_empty_array_returns_number :
    avgFn [Variable.array []] = Except.ok (Variable.number (0 / 0))
    ∧ avgFn [Variable.array []] ≠ Except.ok Variable.null := by
  constructor
  · simp [avgFn, avgSignature, Signature.validate, Signature.validate_arity, validateArgsFrom,
      Signature.validate_arg, ArgumentType.is_valid, Variable.is_array, Variable.get_type]
  · simp [avgFn, avgSignature, Signature.validate, Signature.validate_arity, validateArgsFrom,
      Signature.validate_arg, ArgumentType.is_valid, Variable.is_array, Variable.get_type]

/-- Unfolding of `Signature::validate_arity` for variadic signatures. -/
theorem validate_arity_variadic_eq (sig : Signature) (hv : sig.variadic.isSome = true)
    (actual : Nat) :
    sig.validate_arity actual =
      if sig.inputs.length ≤ actual then .ok ()
      else .error (.runtime (.notEnoughArguments sig.inputs.length actual)) := by
  simp [Signature.validate_arity, hv, ge_iff_le]

/-- Unfolding of `Signature::validate_arity` for non-variadic signatures. -/
theorem validate_arity_fixed_eq (sig : Signature) (hv : sig.variadic.isSome = false)
    (actual : Nat) :
    sig.validate_arity actual =
      if actual = sig.inputs.length then .ok ()
      else if actual < sig.inputs.length then
        .error (.runtime (.notEnoughArguments sig.inputs.length actual))
      else .error (.runtime (.tooManyArguments sig.inputs.length actual)) := by
  simp [Signature.validate_arity, hv]

/-- C4. `Signature::validate_arity` (functions.rs 223-247): with a variadic
signature it succeeds exactly when `actual ≥ len(inputs)` and otherwise
fails with `NotEnoughArguments{expected, actual}`; without one it succeeds
exactly when `actual = len(inputs)`, failing with `NotEnoughArguments` when
short and `TooManyArguments` when long; no other error is ever produced. -/
theorem validate_arity_exact_arity_errors (sig : Signature) (actual : Nat) :
    (sig.variadic.isSome = true →
      ((sig.validate_arity actual = .ok () ↔ sig.inputs.length ≤ actual)
       ∧ (actual < sig.inputs.length →
          sig.validate_arity actual
            = .error (.runtime (.notEnoughArguments sig.inputs.length actual)))))
    ∧ (sig.variadic.isSome = false →
      ((sig.validate_arity actual = .ok () ↔ actual = sig.inputs.length)
       ∧ (actual < sig.inputs.length →
          sig.validate_arity actual
            = .error (.runtime (.notEnoughArguments sig.inputs.length actual)))
       ∧ (sig.inputs.length < actual →
          sig.validate_arity actual
            = .error (.runtime (.tooManyArguments sig.inputs.length actual)))))
    ∧ (∀ e : Error, sig.validate_arity actual = .error e →
        e = .runtime (.notEnoughArguments sig.inputs.length actual)
        ∨ e = .runtime (.tooManyArguments sig.inputs.length actual)) := by
  refine ⟨fun hv => ?_, fun hv => ?_, fun e he => ?_⟩
  · rw [validate_arity_variadic_eq sig hv]
    constructor
    · split_ifs with h1 <;> simp [h1]
    · intro hlt
      rw [if_neg (by omega)]
  · rw [validate_arity_fixed_eq sig hv]
    refine ⟨?_, fun hlt => ?_, fun hgt => ?_⟩
    · split_ifs with h1 <;> simp [h1]
    · rw [if_neg (by omega), if_pos hlt]
    · rw [if_neg (by omega), if_neg (by omega)]
  · rcases hv : sig.variadic.isSome
    · rw [validate_arity_fixed_eq sig hv] at he
      split_ifs at he with h1 h2
      · exact Or.inl (Except.error.inj he).symm
      · exact Or.inr (Except.error.inj he).symm
    · rw [validate_arity_variadic_eq sig hv] at he
      split_ifs at he with h1
      · exact Or.inl (Except.error.inj he).symm

/-- C4 witness: a non-variadic one-input signature called with no argument
fails with `NotEnoughArguments{expected = 1, actual = 0}`. -/
theorem validate_arity_exact_arity_errors_witness :
    (Signature.mk [.any] none .any).validate_arity 0
      = .error (.runtime (.notEnoughArguments 1 0)) :=
  ((validate_arity_exact_arity_errors ⟨[.any], none, .any⟩ 0).2.1 rfl).2.1 (by simp)

/-- C5. `Operator::has_lower_precedence` (parser.rs 80-86) compares with
strict `<` exactly when the left operator is right-associative and with `≤`
otherwise, and `Operator::is_right_associative` (parser.rs 90-98) holds for
exactly the projection operators: `*` as a basic operator, filter,
ArrayProjection and SliceProjection. -/
theorem has_lower_precedence_associativity (a b : Operator) :
    (a.has_lower_precedence b = true ↔
      ((a.is_right_associative = true ∧ a.precedence < b.precedence)
       ∨ (a.is_right_associative = false ∧ a.precedence ≤ b.precedence)))
    ∧ (a.is_right_associative = true ↔
      (a = .basic .star ∨ a = .basic .filter ∨ a = .arrayProjection
       ∨ ∃ ib s e st, a = .sliceProjection ib s e st)) := by
  constructor
  · rcases h : a.is_right_associative
    all_goals simp [Operator.has_lower_precedence, h, decide_eq_true_iff]
  · cases a with
    | basic t => cases t <;> simp [Operator.is_right_associative]
    | _ => simp [Operator.is_right_associative]

/-- C6. `Parser::pop_token` (parser.rs 520-548) on a SliceProjection: the
binary form (led `[`) combines the two top output items into
`Subexpr(lhs, Projection(Slice(start, stop, step), rhs))`; the unary form
(nud `[`) combines the single top output item into
`Projection(Slice(start, stop, step), rhs)`. -/
theorem pop_token_slice_projection (start stop step : Option Int) (ops : List Operator)
    (out : List Ast) (lhs rhs node : Ast) (token : Token) :
    pop_token (.sliceProjection true start stop step :: ops) (rhs :: lhs :: out) token
      = .ok (ops, .subexpr lhs (.projection (.slice start stop step) rhs) :: out, token)
    ∧ pop_token (.sliceProjection false start stop step :: ops) (node :: out) token
      = .ok (ops, .projection (.slice start stop step) node :: out, token) :=
  ⟨rfl, rfl⟩

/-- C8. The QuotedIdentifier null-denotation (parser.rs 234-243): a quoted
identifier immediately followed by `(` is rejected with the message
"Quoted strings can't be function names"; otherwise an ordinary
`Identifier` node is pushed and parsing proceeds with the next token. -/
theorem nud_quoted_identifier_spec (value : String) (rest : List Token) (out : List Ast)
    (t : Token) :
    nud_quoted value (Token.lparen :: rest) out
      = .error (.msg "Quoted strings can\x27t be function names")
    ∧ (t ≠ Token.lparen →
        nud_quoted value (t :: rest) out = .ok (t, rest, .identifier value :: out))
    ∧ nud_quoted value [] out = .ok (.eof, [], .identifier value :: out) := by
  refine ⟨rfl, fun h => ?_, rfl⟩
  cases t
  all_goals first
    | rfl
    | exact absurd rfl h

/-- C8 witness: a quoted identifier followed by a dot parses as an
`Identifier` node. -/
theorem nud_quoted_identifier_spec_witness :
    nud_quoted "q" [Token.dot] [] = .ok (Token.dot, [], [.identifier "q"]) :=
  (nud_quoted_identifier_spec "q" [] [] Token.dot).2.1 (by simp)

/-- C9. `ContainsFn::evaluate` (functions.rs 411-429): with a String
haystack and a non-String needle the result is `Bool(false)` — neither an
error nor Null. -/
theorem contains_string_nonstring_needle_false (s : String) (needle : Variable) :
    needle.is_string = false →
    containsFn [Variable.string s, needle] = .ok (.bool false) := by
  intro h
  cases needle <;>
    simp_all [containsFn, containsSignature, Signature.validate, Signature.validate_arity,
      validateArgsFrom, Signature.validate_arg, ArgumentType.is_valid, anyValid,
      Variable.is_string, Variable.is_array, Variable.get_type, Variable.as_string]

/-- C9 witness: `contains("ab", null)` is `Bool(false)`. -/
theorem contains_string_nonstring_needle_false_witness :
    containsFn [Variable.string "ab", Variable.null] = .ok (.bool false) :=
  contains_string_nonstring_needle_false "ab" Variable.null rfl

/-- C10. `SortByFn::evaluate` (functions.rs 603-641) on an empty array
returns the empty array before touching the expression reference: the
result is the same for every interpreter, so the ExpRef is never evaluated
and no `InvalidReturnType` can arise. -/
theorem sort_by_empty_array_ignores_expref (interp : Ast → Variable → SearchResult)
    (ast : Ast) (f : Variable → SearchResult) :
    sortByFn interp [.array [], .expref ast] = .ok (.array [])
    ∧ sortByBody f [] = .ok (.array []) :=
  ⟨rfl, rfl⟩

/- C2 auxiliary lemmas: `btInsert` keeps keys strictly ascending. -/

theorem btInsert_mem (k : String) (v : Variable) :
    ∀ (l : List (String × Variable)) (x : String × Variable),
      x ∈ btInsert k v l → x = (k, v) ∨ x ∈ l := by
  intro l
  induction l with
  | nil =>
    intro x hx
    simp [btInsert] at hx
    exact Or.inl hx
  | cons hd tl ih =>
    intro x hx
    rcases hd with ⟨k2, v2⟩
    by_cases h1 : k < k2
    · simp [btInsert, h1] at hx
      rcases hx with h | h | h
      · exact Or.inl h
      · exact Or.inr (by simp [h])
      · exact Or.inr (by simp [h])
    · by_cases h2 : k = k2
      · simp [btInsert, h1, h2] at hx
        rcases hx with h | h
        · exact Or.inl (by rw [h2]; exact h)
        · exact Or.inr (by simp [h])
      · simp [btInsert, h1, h2] at hx
        rcases hx with h | h
        · exact Or.inr (by simp [h])
        · rcases ih x h with h3 | h3
          · exact Or.inl h3
          · exact Or.inr (by simp [h3])

theorem btInsert_pairwise (k : String) (v : Variable) :
    ∀ l : List (String × Variable),
      l.Pairwise (fun a b => a.1 < b.1) →
      (btInsert k v l).Pairwise (fun a b => a.1 < b.1) := by
  intro l
  induction l with
  | nil =>
    intro _
    simp [btInsert]
  | cons hd tl ih =>
    intro hp
    rcases hd with ⟨k2, v2⟩
    rw [List.pairwise_cons] at hp
    obtain ⟨hhd, htl⟩ := hp
    by_cases h1 : k < k2
    · simp only [btInsert, if_pos h1]
      rw [List.pairwise_cons]
      refine ⟨?_, List.pairwise_cons.mpr ⟨hhd, htl⟩⟩
      intro b hb
      rcases List.mem_cons.mp hb with h | h
      · simpa [h] using h1
      · exact lt_trans h1 (hhd b h)
    · by_cases h2 : k = k2
      · simp only [btInsert, if_neg h1, if_pos h2]
        rw [List.pairwise_cons]
        refine ⟨fun b hb => ?_, htl⟩
        simpa [h2] using hhd b hb
      · have h3 : k2 < k := by
          rcases lt_trichotomy k k2 with h | h | h
          · exact absurd h h1
          · exact absurd h h2
          · exact h
        simp only [btInsert, if_neg h1, if_neg h2]
        rw [List.pairwise_cons]
        refine ⟨fun b hb => ?_, ih htl⟩
        rcases btInsert_mem k v tl b hb with h | h
        · simpa [h] using h3
        · exact hhd b h

theorem btExtend_pairwise (acc : List (String × Variable))
    (entries : List (String × Variable))
    (h : acc.Pairwise (fun a b => a.1 < b.1)) :
    (btExtend acc entries).Pairwise (fun a b => a.1 < b.1) := by
  induction entries generalizing acc with
  | nil => exact h
  | cons hd tl ih =>
    rw [btExtend, List.foldl_cons]
    exact ih (btInsert hd.1 hd.2 acc) (btInsert_pairwise hd.1 hd.2 acc h)

theorem mergeFold_pairwise (args : List Variable) :
    ∀ acc : List (String × Variable),
      acc.Pairwise (fun a b => a.1 < b.1) →
      (args.foldl
        (fun acc arg =>
          match arg with
          | .object m => btExtend acc m
          | _ => acc)
        acc).Pairwise (fun a b => a.1 < b.1) := by
  induction args with
  | nil =>
    intro acc h
    exact h
  | cons hd tl ih =>
    intro acc h
    rw [List.foldl_cons]
    cases hd <;> simp only <;> exact ih _ (by first | exact h | exact btExtend_pairwise acc _ h)

/-- C2 counterexample. Inserting `"b"` and then `"a"` (for example by merging
`{"b": 1}` into `{"a": 2}`, exactly what `MergeFn` does with
`BTreeMap::extend`) yields an object whose `keys` come out as
`["a", "b"]` — ascending key order, not the insertion order `["b", "a"]`. -/
theorem object_iteration_not_insertion_order_counterexample :
    mergeFn [Variable.object [("b", .number 1)], Variable.object [("a", .number 2)]]
      = Except.ok (.object [("a", .number 2), ("b", .number 1)])
    ∧ keysFn [Variable.object (btInsert "a" (.number 2) (btInsert "b" (.number 1) []))]
      = Except.ok (.array [.string "a", .string "b"])
    ∧ Variable.array [.string "a", .string "b"] ≠ .array [.string "b", .string "a"] := by
  refine ⟨?_, ?_, ?_⟩
  · simp +decide [mergeFn, mergeSignature, Signature.validate, Signature.validate_arity,
      validateArgsFrom, Signature.validate_arg, ArgumentType.is_valid, Variable.is_object,
      Variable.get_type, btExtend, btInsert]
  · simp +decide [keysFn, keysSignature, Signature.validate, Signature.validate_arity,
      validateArgsFrom, Signature.validate_arg, ArgumentType.is_valid, Variable.is_object,
      Variable.get_type, btInsert]
  · simp +decide

/-- C2 amended: object iteration order, as observed by `keys`, `values` and
`merge`, is ascending key order (the `BTreeMap` order), not insertion
order: `merge` always returns an object whose keys are strictly ascending,
and `keys`/`values` return the stored entries in exactly that order. -/
theorem object_iteration_is_sorted_key_order :
    (∀ (args : List Variable) (r : List (String × Variable)),
      mergeFn args = Except.ok (.object r) → r.Pairwise (fun a b => a.1 < b.1))
    ∧ (∀ m : List (String × Variable), m.Pairwise (fun a b => a.1 < b.1) →
        keysFn [Variable.object m] = Except.ok (.array (m.map (fun kv => .string kv.1)))
        ∧ (m.map (fun kv => kv.1)).Pairwise (· < ·)
        ∧ valuesFn [Variable.object m] = Except.ok (.array (m.map (fun kv => kv.2)))) := by
  constructor
  · intro args r hr
    rw [mergeFn] at hr
    rcases hval : mergeSignature.validate args with e | u
    · rw [hval] at hr
      simp at hr
    · rw [hval] at hr
      simp only at hr
      have hfold := mergeFold_pairwise args [] (by simp)
      have : (args.foldl
          (fun acc arg =>
            match arg with
            | .object m => btExtend acc m
            | _ => acc)
          []) = r := by
        have := Except.ok.inj hr
        exact Variable.object.inj this
      rwa [this] at hfold
  · intro m hm
    refine ⟨rfl, ?_, rfl⟩
    exact (List.pairwise_map).mpr hm

/-- C2 amended witness: for the two-entry sorted object `{"a": _, "b": _}`,
`keys` returns `["a", "b"]` and those keys are strictly ascending. -/
theorem object_iteration_is_sorted_key_order_witness :
    keysFn [Variable.object [("a", Variable.null), ("b", Variable.null)]]
      = Except.ok (.array [.string "a", .string "b"])
    ∧ (["a", "b"] : List String).Pairwise (· < ·) := by
  have h := object_iteration_is_sorted_key_order.2 [("a", Variable.null), ("b", Variable.null)]
    (by simp +decide)
  exact ⟨h.1, by simpa using h.2.1⟩

/- C3 auxiliary lemmas: where the mapping loops of `min_and_max_by!` and
`SortByFn` report a mismatching return kind. -/

theorem mmbLoop_error_at (cmp : Variable → Variable → Bool) (f : Variable → SearchResult)
    (ft : JmespathType) (bad wb : Variable) (rest : List Variable)
    (hfb : f bad = .ok wb) (hne : wb.get_type ≠ ft) :
    ∀ (mid : List Variable) (inv : Nat) (cand : Variable × Variable),
      (∀ v ∈ mid, ∃ w, f v = .ok w ∧ w.get_type = ft) →
      mmbLoop cmp f ft (mid ++ bad :: rest) inv cand
        = .error (.runtime (.invalidReturnType ("expression->" ++ ft.toStr)
            wb.get_type.toStr 1 (inv + mid.length))) := by
  intro mid
  induction mid with
  | nil =>
    intro inv cand _
    simp [mmbLoop, hfb, hne]
  | cons m mid ih =>
    intro inv cand hmid
    obtain ⟨w, hw, hwt⟩ := hmid m (List.mem_cons_self _ _)
    have hrest := fun v hv => hmid v (List.mem_cons_of_mem _ hv)
    rw [List.cons_append]
    simp only [mmbLoop, hw]
    rw [if_neg (by simp [hwt])]
    rw [ih (inv + 1) _ hrest]
    have hlen : inv + 1 + mid.length = inv + (m :: mid).length := by
      simp [List.length_cons]
      omega
    rw [hlen]

theorem sortByLoop_error_at (f : Variable → SearchResult)
    (ft : JmespathType) (bad wb : Variable) (rest : List Variable)
    (hfb : f bad = .ok wb) (hne : wb.get_type ≠ ft) :
    ∀ (mid : List Variable) (inv : Nat) (acc : List (Variable × Variable)),
      (∀ v ∈ mid, ∃ w, f v = .ok w ∧ w.get_type = ft) →
      sortByLoop f ft (mid ++ bad :: rest) inv acc
        = .error (.runtime (.invalidReturnType ("expression->" ++ ft.toStr)
            wb.get_type.toStr 1 (inv + mid.length))) := by
  intro mid
  induction mid with
  | nil =>
    intro inv acc _
    simp [sortByLoop, hfb, hne]
  | cons m mid ih =>
    intro inv acc hmid
    obtain ⟨w, hw, hwt⟩ := hmid m (List.mem_cons_self _ _)
    have hrest := fun v hv => hmid v (List.mem_cons_of_mem _ hv)
    rw [List.cons_append]
    simp only [sortByLoop, hw]
    rw [if_neg (by simp [hwt])]
    rw [ih (inv + 1) _ hrest]
    have hlen : inv + 1 + mid.length = inv + (m :: mid).length := by
      simp [List.length_cons]
      omega
    rw [hlen]

/-- `MaxByFn::evaluate` on a well-typed argument pair reduces to the
`min_and_max_by!` body. -/
theorem maxByFn_eq_body (interp : Ast → Variable → SearchResult) (vals : List Variable)
    (ast : Ast) :
    maxByFn interp [.array vals, .expref ast] = minAndMaxBy Variable.pGt (interp ast) vals := rfl

/-- `MinByFn::evaluate` on a well-typed argument pair reduces to the
`min_and_max_by!` body. -/
theorem minByFn_eq_body (interp : Ast → Variable → SearchResult) (vals : List Variable)
    (ast : Ast) :
    minByFn interp [.array vals, .expref ast] = minAndMaxBy Variable.pLt (interp ast) vals := rfl

/-- `SortByFn::evaluate` on a well-typed argument pair reduces to its body. -/
theorem sortByFn_eq_body (interp : Ast → Variable → SearchResult) (vals : List Variable)
    (ast : Ast) :
    sortByFn interp [.array vals, .expref ast] = sortByBody (interp ast) vals := rfl

/-- C3 counterexample. `max_by` over the one-element array `[null]` with the
identity expression reference (`@`): the offending element has index 0, but
the error's invocation field is 1 (functions.rs 329: `invocation: 1` for the
first element), so the invocation field does not equal the index of the
offending element. -/
theorem by_functions_invocation_counterexample :
    maxByFn (fun _ v => .ok v) [Variable.array [Variable.null], .expref .currentNode]
      = .error (.runtime (.invalidReturnType "expression->number|expression->string" "null" 1 1))
    ∧ (1 : Nat) ≠ 0 :=
  ⟨rfl, by simp⟩

/-- C3 amended. For `max_by`, `min_by` and `sort_by` on a non-empty array:
if the first element's mapped value is neither String nor Number the call
fails with `InvalidReturnType` whose invocation field is 1 (not the
element's index 0); if a later element's mapped value has a different kind
than the first, the call fails with `InvalidReturnType` whose invocation
field equals that element's index. The expected-type strings differ:
`min_and_max_by!` writes "expression->number|expression->string" for the
first element while `SortByFn` writes "expression->string|expression->number". -/
theorem by_functions_invalid_return_type (interp : Ast → Variable → SearchResult)
    (ast : Ast) (v0 bad : Variable) (mid rest : List Variable) (w0 wb : Variable) :
    (interp ast v0 = .ok w0 → w0.get_type ≠ .string → w0.get_type ≠ .number →
      (maxByFn interp [.array (v0 :: mid), .expref ast]
         = .error (.runtime (.invalidReturnType "expression->number|expression->string"
             w0.get_type.toStr 1 1))
       ∧ minByFn interp [.array (v0 :: mid), .expref ast]
         = .error (.runtime (.invalidReturnType "expression->number|expression->string"
             w0.get_type.toStr 1 1))
       ∧ sortByFn interp [.array (v0 :: mid), .expref ast]
         = .error (.runtime (.invalidReturnType "expression->string|expression->number"
             w0.get_type.toStr 1 1))))
    ∧ (interp ast v0 = .ok w0 → (w0.get_type = .string ∨ w0.get_type = .number) →
       (∀ v ∈ mid, ∃ w, interp ast v = .ok w ∧ w.get_type = w0.get_type) →
       interp ast bad = .ok wb → wb.get_type ≠ w0.get_type →
       (maxByFn interp [.array (v0 :: (mid ++ bad :: rest)), .expref ast]
          = .error (.runtime (.invalidReturnType ("expression->" ++ w0.get_type.toStr)
              wb.get_type.toStr 1 (mid.length + 1)))
        ∧ minByFn interp [.array (v0 :: (mid ++ bad :: rest)), .expref ast]
          = .error (.runtime (.invalidReturnType ("expression->" ++ w0.get_type.toStr)
              wb.get_type.toStr 1 (mid.length + 1)))
        ∧ sortByFn interp [.array (v0 :: (mid ++ bad :: rest)), .expref ast]
          = .error (.runtime (.invalidReturnType ("expression->" ++ w0.get_type.toStr)
              wb.get_type.toStr 1 (mid.length + 1))))) := by
  constructor
  · intro h0 hs hn
    refine ⟨?_, ?_, ?_⟩
    · rw [maxByFn_eq_body]
      simp only [minAndMaxBy, h0]
      rw [if_pos ⟨hs, hn⟩]
    · rw [minByFn_eq_body]
      simp only [minAndMaxBy, h0]
      rw [if_pos ⟨hs, hn⟩]
    · rw [sortByFn_eq_body]
      simp only [sortByBody, h0]
      rw [if_pos ⟨hs, hn⟩]
  · intro h0 hkind hmid hb hne
    have hcond : ¬(w0.get_type ≠ JmespathType.string ∧ w0.get_type ≠ JmespathType.number) := by
      rcases hkind with h | h <;> simp [h]
    have hinv : 1 + mid.length = mid.length + 1 := Nat.add_comm 1 mid.length
    refine ⟨?_, ?_, ?_⟩
    · rw [maxByFn_eq_body]
      simp only [minAndMaxBy, h0]
      rw [if_neg hcond,
        mmbLoop_error_at Variable.pGt (interp ast) _ bad wb rest hb hne mid 1 _ hmid, hinv]
    · rw [minByFn_eq_body]
      simp only [minAndMaxBy, h0]
      rw [if_neg hcond,
        mmbLoop_error_at Variable.pLt (interp ast) _ bad wb rest hb hne mid 1 _ hmid, hinv]
    · rw [sortByFn_eq_body]
      simp only [sortByBody, h0]
      rw [if_neg hcond,
        sortByLoop_error_at (interp ast) _ bad wb rest hb hne mid 1 _ hmid, hinv]

/-- C3 amended witness: with the identity expression reference, a Bool first
element gives invocation 1, and a null third element (index 2) after two
String elements gives invocation 2. -/
theorem by_functions_invalid_return_type_witness :
    maxByFn (fun _ v => .ok v) [Variable.array [Variable.bool true], .expref .currentNode]
      = .error (.runtime (.invalidReturnType "expression->number|expression->string"
          "boolean" 1 1))
    ∧ sortByFn (fun _ v => .ok v)
        [Variable.array [Variable.string "a", Variable.string "b", Variable.null],
         .expref .currentNode]
      = .error (.runtime (.invalidReturnType "expression->string" "null" 1 2)) := by
  constructor
  · exact ((by_functions_invalid_return_type (fun _ v => .ok v) .currentNode
      (Variable.bool true) Variable.null [] [] (Variable.bool true) Variable.null).1
      rfl (by decide) (by decide)).1
  · exact ((by_functions_invalid_return_type (fun _ v => .ok v) .currentNode
      (Variable.string "a") Variable.null [Variable.string "b"] [] (Variable.string "a")
      Variable.null).2
      rfl (Or.inl rfl)
      (by
        intro v hv
        simp at hv
        subst hv
        exact ⟨Variable.string "b", rfl, rfl⟩)
      rfl (by decide)).2.2

/- C7 auxiliary lemmas: the slice loop fails on a third colon and on
adjacent number tokens, wherever they sit in the bracket body. -/

theorem parse_slice_loop_colons_error :
    ∀ (body : List Token) (pos : Nat) (parts : Option Int × Option Int × Option Int)
      (rest : List Token),
      Token.rbracket ∉ body → pos ≤ 2 → 3 ≤ pos + countColons body →
      ∃ e, parse_slice_loop (body ++ Token.rbracket :: rest) pos parts = .error e := by
  intro body
  induction body with
  | nil =>
    intro pos parts rest _ h2 h3
    simp [countColons] at h3
    omega
  | cons t tl ih =>
    intro pos parts rest hnotin h2 h3
    have hnotin2 : Token.rbracket ∉ tl := fun h => hnotin (List.mem_cons_of_mem _ h)
    have hne : t ≠ Token.rbracket := fun h => hnotin (by rw [h]; exact List.mem_cons_self _ _)
    cases t
    case colon =>
      by_cases hpos : pos = 2
      · exact ⟨_, by rw [List.cons_append]; simp only [parse_slice_loop]; rw [if_pos hpos]⟩
      · have h3b : 3 ≤ (pos + 1) + countColons tl := by
          simp [countColons] at h3
          omega
        obtain ⟨e, he⟩ := ih (pos + 1) parts rest hnotin2 (by omega) h3b
        refine ⟨e, ?_⟩
        rw [List.cons_append]
        simp only [parse_slice_loop]
        rw [if_neg hpos]
        exact he
    case number v =>
      cases tl with
      | nil =>
        simp [countColons] at h3
        omega
      | cons t2 tl2 =>
        by_cases hnum : t2.is_number = true
        · refine ⟨ParseErr.msg "Expected \x27:\x27, or \x27]\x27", ?_⟩
          rw [List.cons_append, List.cons_append]
          simp only [parse_slice_loop]
          rw [if_pos hnum]
        · have hcount : countColons (Token.number v :: t2 :: tl2) = countColons (t2 :: tl2) := by
            simp [countColons]
          obtain ⟨e, he⟩ := ih pos (setPart parts pos v) rest hnotin2 h2
            (by rw [hcount] at h3; exact h3)
          refine ⟨e, ?_⟩
          rw [List.cons_append, List.cons_append]
          simp only [parse_slice_loop]
          rw [if_neg hnum]
          rw [List.cons_append] at he
          exact he
    case rbracket => exact absurd rfl hne
    all_goals exact ⟨_, rfl⟩

theorem parse_slice_loop_adjacent_numbers_error :
    ∀ (body : List Token) (pos : Nat) (parts : Option Int × Option Int × Option Int)
      (rest : List Token),
      Token.rbracket ∉ body → hasAdjacentNumbers body = true →
      ∃ e, parse_slice_loop (body ++ Token.rbracket :: rest) pos parts = .error e := by
  intro body
  induction body with
  | nil =>
    intro pos parts rest _ hadj
    simp [hasAdjacentNumbers] at hadj
  | cons t tl ih =>
    intro pos parts rest hnotin hadj
    have hnotin2 : Token.rbracket ∉ tl := fun h => hnotin (List.mem_cons_of_mem _ h)
    have hne : t ≠ Token.rbracket := fun h => hnotin (by rw [h]; exact List.mem_cons_self _ _)
    cases t
    case colon =>
      have hadj2 : hasAdjacentNumbers tl = true := by simpa [hasAdjacentNumbers] using hadj
      by_cases hpos : pos = 2
      · exact ⟨_, by rw [List.cons_append]; simp only [parse_slice_loop]; rw [if_pos hpos]⟩
      · obtain ⟨e, he⟩ := ih (pos + 1) parts rest hnotin2 hadj2
        refine ⟨e, ?_⟩
        rw [List.cons_append]
        simp only [parse_slice_loop]
        rw [if_neg hpos]
        exact he
    case number v =>
      cases tl with
      | nil => simp [hasAdjacentNumbers] at hadj
      | cons t2 tl2 =>
        by_cases hnum : t2.is_number = true
        · refine ⟨ParseErr.msg "Expected \x27:\x27, or \x27]\x27", ?_⟩
          rw [List.cons_append, List.cons_append]
          simp only [parse_slice_loop]
          rw [if_pos hnum]
        · have hadj2 : hasAdjacentNumbers (t2 :: tl2) = true := by
            cases t2 <;> simp_all [hasAdjacentNumbers, Token.is_number]
          obtain ⟨e, he⟩ := ih pos (setPart parts pos v) rest hnotin2 hadj2
          refine ⟨e, ?_⟩
          rw [List.cons_append, List.cons_append]
          simp only [parse_slice_loop]
          rw [if_neg hnum]
          rw [List.cons_append] at he
          exact he
    case rbracket => exact absurd rfl hne
    all_goals exact ⟨_, rfl⟩

/-- C7. `Parser::parse_slice` (parser.rs 390-414): a bracket body containing
more than two colons fails with a ParseError, as does a number part
immediately followed by another number token; otherwise up to three optional
numeric parts separated by colons are read, and the operator handed to
`projection_rhs` (which pushes it) is a SliceProjection carrying those
parts whose binary flag is `!is_nud`, i.e. set iff the `[` occurred in led
position. -/
theorem parse_slice_spec (ib : Bool) :
    (∀ (body rest : List Token), Token.rbracket ∉ body → 3 ≤ countColons body →
      ∃ e, parse_slice ib (body ++ Token.rbracket :: rest) = .error e)
    ∧ (∀ (body rest : List Token), Token.rbracket ∉ body → hasAdjacentNumbers body = true →
      ∃ e, parse_slice ib (body ++ Token.rbracket :: rest) = .error e)
    ∧ (∀ (is_nud : Bool) (p0 p1 p2 : Option Int) (rest : List Token),
        parse_lbracket_slice is_nud
            (optNumTok p0 ++ Token.colon :: optNumTok p1 ++ Token.colon :: optNumTok p2
              ++ Token.rbracket :: rest)
          = .ok (.sliceProjection (!is_nud) p0 p1 p2, rest)
        ∧ parse_lbracket_slice is_nud
            (optNumTok p0 ++ Token.colon :: optNumTok p1 ++ Token.rbracket :: rest)
          = .ok (.sliceProjection (!is_nud) p0 p1 none, rest)) := by
  refine ⟨fun body rest h1 h2 => ?_, fun body rest h1 h2 => ?_, fun is_nud p0 p1 p2 rest => ?_⟩
  · obtain ⟨e, he⟩ := parse_slice_loop_colons_error body 0 (none, none, none) rest h1
      (by omega) (by omega)
    exact ⟨e, by simp only [parse_slice, he]⟩
  · obtain ⟨e, he⟩ := parse_slice_loop_adjacent_numbers_error body 0 (none, none, none) rest h1 h2
    exact ⟨e, by simp only [parse_slice, he]⟩
  · rcases p0 with _ | a <;> rcases p1 with _ | b <;> rcases p2 with _ | c <;>
      exact ⟨rfl, rfl⟩

/-- C7 witness: `[:::...]` errors on the third colon, `[1 2]`-style adjacent
numbers error, and the led-position two-colon form `[0::-1]` produces a
binary SliceProjection with parts `(Some 0, None, Some (-1))`. -/
theorem parse_slice_spec_witness :
    (∃ e, parse_slice true
        ([Token.colon, Token.colon, Token.colon] ++ Token.rbracket :: []) = .error e)
    ∧ (∃ e, parse_slice true
        ([Token.number 1, Token.number 2] ++ Token.rbracket :: []) = .error e)
    ∧ parse_lbracket_slice false
        (optNumTok (some 0) ++ Token.colon :: optNumTok none ++ Token.colon
          :: optNumTok (some (-1)) ++ Token.rbracket :: [])
      = .ok (.sliceProjection true (some 0) none (some (-1)), []) := by
  refine ⟨?_, ?_, ?_⟩
  · exact (parse_slice_spec true).1 [Token.colon, Token.colon, Token.colon] []
      (by simp) (by simp [countColons])
  · exact (parse_slice_spec true).2.1 [Token.number 1, Token.number 2] []
      (by simp) (by simp [hasAdjacentNumbers])
  · exact ((parse_slice_spec true).2.2 false (some 0) none (some (-1)) []).1

end Jmespath
